import Mathlib

/-!
Formal model of the NeuroNav frontend (React/TypeScript) and of the
spec-described backend engine components that the repository references
but does not ship in its visible sources.

Source embedding conventions:
- JavaScript numbers are modelled as exact rationals (`ℚ`); `NaN` results
  (such as `0 / 0`) are modelled with `Option`, `none` standing for `NaN`.
- `JSON.parse` results are modelled by the `Json` inductive; a failed parse
  is `Option.none`.
- Promise rejection / thrown exceptions are modelled with explicit result
  inductives.
-/

/-- A JSON value, as produced by `response.json()` / `JSON.parse`. -/
inductive Json where
  | null
  | bool (b : Bool)
  | num (q : ℚ)
  | str (s : String)
  | arr (elems : List Json)
  | obj (fields : List (String × Json))

/-- Property lookup on a parsed JSON object: with duplicate keys,
`JSON.parse` keeps the last occurrence, so lookup prefers later fields. -/
def lookupField : List (String × Json) → String → Option Json
  | [], _ => none
  | (k', v) :: rest, k =>
    match lookupField rest k with
    | some w => some w
    | none => if k' = k then some v else none

/-- Result of a JavaScript property access `x.k` on a parsed JSON value:
the field's value when the object has it; `undefined` when an object lacks
it or the value is a boolean, number, string or array (primitives are
boxed, arrays are objects without that key); a thrown `TypeError` when the
value is `null` — in JavaScript `null.k` throws. -/
inductive JsProp where
  | value (v : Json)
  | undefined
  | typeError

/-- JavaScript property access `x.k` on a parsed JSON value. -/
def getField (j : Json) (k : String) : JsProp :=
  match j with
  | .null => .typeError
  | .obj fields =>
    match lookupField fields k with
    | some v => .value v
    | none => .undefined
  | _ => .undefined

/-- JavaScript truthiness of a JSON value: `null`, `false`, `0` and `""`
are falsy; every other value (including any array or object) is truthy. -/
def jsTruthy : Json → Bool
  | .null => false
  | .bool b => b
  | .num q => decide (q ≠ 0)
  | .str s => decide (s ≠ "")
  | .arr _ => true
  | .obj _ => true

/-- Outcome of `handleResponse` (src/unnamed/part_000, lines 122-128):
either the parsed body is returned, or an `ApiError` with a status and a
message value is thrown, or — on an ok response whose body fails to parse —
the `response.json()` rejection propagates unwrapped, or — on a non-ok
response whose body parses to JSON `null` — the `errorData.error` access
throws a `TypeError` that propagates instead of an `ApiError`. -/
inductive HandleResult where
  | success (body : Json)
  | apiErrorThrown (status : Nat) (message : Json)
  | parseFailure
  | typeErrorThrown

/-- Embedding of `handleResponse` (src/unnamed/part_000, lines 122-128):
`ok` is `response.ok`, `status` is `response.status`, `parsed` is the result
of `response.json()` (`none` = the body is not valid JSON).  On a non-ok
response the code runs
`errorData = await response.json().catch(() => ({ error: 'Unknown error' }))`
and throws `ApiError(status, errorData.error || 'Request failed')`. -/
def handleResponse (ok : Bool) (status : Nat) (parsed : Option Json) : HandleResult :=
  if ok then
    match parsed with
    | some j => .success j
    | none => .parseFailure
  else
    let errorData := parsed.getD (Json.obj [("error", Json.str "Unknown error")])
    match getField errorData "error" with
    | .typeError => .typeErrorThrown
    | .value v =>
      .apiErrorThrown status (if jsTruthy v then v else Json.str "Request failed")
    | .undefined => .apiErrorThrown status (Json.str "Request failed")

/-- An HTTP request as assembled by the API client: method, URL path
segments, and the JSON body fields passed to `JSON.stringify` (`none` when
the request has no body). -/
structure ApiRequest where
  method : String
  path : List String
  bodyFields : Option (List (String × Json))

/-- Embedding of `progressApi.updateStepProgress` (src/unnamed/part_000,
lines 182-192): `POST /roadmaps/:id/progress` with body
`{ step_number, completed }`. -/
def updateStepProgressRequest (roadmapId : String) (stepNumber : Nat) (completed : Bool) :
    ApiRequest :=
  { method := "POST"
    path := ["roadmaps", roadmapId, "progress"]
    bodyFields := some [("step_number", Json.num (stepNumber : ℚ)),
                        ("completed", Json.bool completed)] }

/-- Embedding of `roadmapApi.reorderSteps` (src/unnamed/part_000, lines
274-285): `PUT /roadmaps/:id/steps/reorder` with body `{ step_order }`. -/
def reorderStepsRequest (roadmapId : String) (stepOrder : List Nat) : ApiRequest :=
  { method := "PUT"
    path := ["roadmaps", roadmapId, "steps", "reorder"]
    bodyFields := some [("step_order", Json.arr (stepOrder.map (fun n => Json.num (n : ℚ))))] }

/-- Embedding of `roadmapApi.deleteStep` (src/unnamed/part_000, lines
266-272): `DELETE /roadmaps/:id/steps/:stepNumber`, no body. -/
def deleteStepRequest (roadmapId : String) (stepNumber : Nat) : ApiRequest :=
  { method := "DELETE"
    path := ["roadmaps", roadmapId, "steps", toString stepNumber]
    bodyFields := none }

/-- Embedding of `roadmapApi.addStep` (src/unnamed/part_000, lines 254-264):
`POST /roadmaps/:id/steps` with the step payload fields as body. -/
def addStepRequest (roadmapId : String) (stepData : List (String × Json)) : ApiRequest :=
  { method := "POST"
    path := ["roadmaps", roadmapId, "steps"]
    bodyFields := some stepData }

/-- The top-level JSON field names a request's body carries. -/
def requestFieldNames (r : ApiRequest) : List String :=
  (r.bodyFields.getD []).map Prod.fst

/-- A roadmap step as declared by the `RoadmapStep` interface
(src/unnamed/part_000, lines 54-66); `completed` and `completed_at` are
optional fields, modelled with `Option`. -/
structure RoadmapStep where
  step_number : Nat
  title : String
  description : String
  resource_id : String
  resource_url : String
  resource_type : String
  estimated_time_minutes : Nat
  tags : List String
  brain_type_optimized : Bool
  completed : Option Bool := none
  completed_at : Option String := none
deriving DecidableEq, Repr

/-- The locally recomputed progress summary (src/src/pages/RoadmapView.tsx,
lines 93-97).  `completion_percentage` is `none` when the JavaScript
computation yields `NaN`. -/
structure LocalProgressSummary where
  total_steps : Nat
  completed_steps : Nat
  completion_percentage : Option ℚ
deriving DecidableEq, Repr

/-- JavaScript `Math.round` on a (finite, exact-rational) number: round
half toward positive infinity. -/
def jsMathRound (q : ℚ) : ℤ := ⌊q + 1 / 2⌋

/-- The per-step update applied inside `setRoadmap`'s `map` in
`handleProgressToggle` (src/src/pages/RoadmapView.tsx, lines 81-85):
`step.step_number === stepNumber ? { ...step, completed, completed_at:
completed ? new Date().toISOString() : undefined } : step`.  `now` is the
value of `new Date().toISOString()` at the time of the toggle. -/
def toggleStep (stepNumber : Nat) (completed : Bool) (now : String) (s : RoadmapStep) :
    RoadmapStep :=
  if s.step_number = stepNumber then
    { s with completed := some completed
             completed_at := if completed then some now else none }
  else s

/-- Truthiness of `step.completed` (an optional boolean: `undefined` is
falsy), as used by the `filter` on line 87 of RoadmapView.tsx. -/
def stepCompletedTruthy (s : RoadmapStep) : Bool :=
  s.completed.getD false

/-- The summary recomputation in `handleProgressToggle`
(src/src/pages/RoadmapView.tsx, lines 87-97):
`completedSteps = updatedSteps.filter(step => step.completed).length`,
`completionPercentage = (completedSteps / updatedSteps.length) * 100`, and
the stored summary carries
`Math.round(completionPercentage * 10) / 10`.  When `updatedSteps` is empty
the division is `0 / 0 = NaN`, modelled as `none`. -/
def recomputeProgressSummary (steps : List RoadmapStep) : LocalProgressSummary :=
  let completedSteps := (steps.filter stepCompletedTruthy).length
  { total_steps := steps.length
    completed_steps := completedSteps
    completion_percentage :=
      if steps.length = 0 then none
      else some ((jsMathRound ((completedSteps : ℚ) / (steps.length : ℚ) * 100 * 10) : ℚ) / 10) }

/-- The local-state effect of `handleProgressToggle`
(src/src/pages/RoadmapView.tsx, lines 78-99) on a roadmap's steps: map the
per-step toggle over the steps, then recompute the progress summary from
the updated steps. -/
def handleProgressToggleSteps (steps : List RoadmapStep) (stepNumber : Nat) (completed : Bool)
    (now : String) : List RoadmapStep × LocalProgressSummary :=
  let updatedSteps := steps.map (toggleStep stepNumber completed now)
  (updatedSteps, recomputeProgressSummary updatedSteps)

/-- Rounding to one decimal as written in the spec:
`round(x, 1)` with round-half-up, exactly representable over `ℚ`. -/
def specRound1 (x : ℚ) : ℚ := (jsMathRound (x * 10) : ℚ) / 10

/-- The form state of `EditStepModal` (src/src/components/EditStepModal.tsx,
lines 21-29).  `estimated_time_minutes` is an `Int`: `parseInt` of the text
input can produce negative values. -/
structure StepFormData where
  title : String
  description : String
  resource_url : String
  resource_type : String
  estimated_time_minutes : Int
  tags : List String
  brain_type_optimized : Bool

/-- Observable outcome of one `handleSubmit` run in `EditStepModal`:
whether `onSave` was invoked, the error message shown (empty = no error),
and whether the modal was closed via `onClose`. -/
structure SubmitOutcome where
  saveInvoked : Bool
  errorMessage : String
  modalClosed : Bool
deriving DecidableEq, Repr

/-- Embedding of `EditStepModal.handleSubmit`
(src/src/components/EditStepModal.tsx, lines 85-117): the four validation
checks run in order, each setting an error and returning without saving;
when all pass, `onSave(formData)` runs — on success `onClose()` fires, on a
thrown error the message is shown and the modal stays open.  `saveResult`
stands for the outcome of the awaited `onSave` call. -/
def handleSubmit (form : StepFormData) (saveResult : Except String Unit) : SubmitOutcome :=
  if form.title.trim = "" then
    { saveInvoked := false, errorMessage := "Title is required", modalClosed := false }
  else if form.description.trim = "" then
    { saveInvoked := false, errorMessage := "Description is required", modalClosed := false }
  else if form.resource_url.trim = "" then
    { saveInvoked := false
      errorMessage := "Resource URL is required"
      modalClosed := false }
  else if form.estimated_time_minutes < 1 then
    { saveInvoked := false
      errorMessage := "Estimated time must be at least 1 minute"
      modalClosed := false }
  else
    match saveResult with
    | .ok _ => { saveInvoked := true, errorMessage := "", modalClosed := true }
    | .error e => { saveInvoked := true, errorMessage := e, modalClosed := false }

/-- The validity condition of the `EditStepModal` form: the three text
fields are non-blank after trimming and the estimated time is at least 1. -/
def stepFormValid (form : StepFormData) : Prop :=
  form.title.trim ≠ "" ∧ form.description.trim ≠ "" ∧ form.resource_url.trim ≠ "" ∧
    1 ≤ form.estimated_time_minutes

instance (form : StepFormData) : Decidable (stepFormValid form) := by
  unfold stepFormValid; infer_instance

/-- The three learning intensities offered by the quiz. -/
inductive Intensity where
  | beginner
  | intermediate
  | advanced
deriving DecidableEq, Repr

/-- Modelled from the spec: the RoadmapSynthesizer's intensity enumeration
(spec section 4.2) — absent from the visible sources (it lives in the Flask
backend) — maps each intensity to a pair (daily minutes budget, target
weeks): beginner 30/8, intermediate 60/6, advanced 90/4. -/
def intensityBudget : Intensity → Nat × Nat
  | .beginner => (30, 8)
  | .intermediate => (60, 6)
  | .advanced => (90, 4)

/-- The wire value each intensity submits (the Select item values in
src/src/pages/Quiz.tsx, lines 317-319). -/
def intensityValue : Intensity → String
  | .beginner => "beginner"
  | .intermediate => "intermediate"
  | .advanced => "advanced"

/-- The capitalized display name used in the Select item labels. -/
def intensityDisplayName : Intensity → String
  | .beginner => "Beginner"
  | .intermediate => "Intermediate"
  | .advanced => "Advanced"

/-- The three intensities in the order the quiz lists them. -/
def intensityList : List Intensity := [.beginner, .intermediate, .advanced]

/-- The intensity Select options of the quiz (src/src/pages/Quiz.tsx, lines
316-320), as (submitted value, visible label) pairs, transcribed verbatim. -/
def quizIntensityOptions : List (String × String) :=
  [("beginner", "Beginner (30 min/day, 8 weeks)"),
   ("intermediate", "Intermediate (60 min/day, 6 weeks)"),
   ("advanced", "Advanced (90 min/day, 4 weeks)")]

/-- The four fixed learning styles of the VARK model. -/
inductive Style where
  | visual
  | auditory
  | readWrite
  | kinesthetic
deriving DecidableEq, Repr

/-- Position of a style in the fixed canonical ordering
(Visual, Auditory, ReadWrite, Kinesthetic). -/
def canonIdx : Style → Nat
  | .visual => 0
  | .auditory => 1
  | .readWrite => 2
  | .kinesthetic => 3

/-- A style-indexed weight vector (the StyleScore of the spec, section 3). -/
structure StyleWeights where
  visual : ℚ
  auditory : ℚ
  readWrite : ℚ
  kinesthetic : ℚ
deriving DecidableEq, Repr

/-- Look up one style's weight. -/
def StyleWeights.get (w : StyleWeights) : Style → ℚ
  | .visual => w.visual
  | .auditory => w.auditory
  | .readWrite => w.readWrite
  | .kinesthetic => w.kinesthetic

/-- Element-wise sum of two weight vectors. -/
def StyleWeights.add (w₁ w₂ : StyleWeights) : StyleWeights :=
  { visual := w₁.visual + w₂.visual
    auditory := w₁.auditory + w₂.auditory
    readWrite := w₁.readWrite + w₂.readWrite
    kinesthetic := w₁.kinesthetic + w₂.kinesthetic }

/-- The zero weight vector. -/
def StyleWeights.zero : StyleWeights := ⟨0, 0, 0, 0⟩

/-- Total accumulated weight across the four styles. -/
def totalWeight (w : StyleWeights) : ℚ :=
  w.visual + w.auditory + w.readWrite + w.kinesthetic

/-- A quiz option with its style-weight vector (spec section 3,
QuizQuestion). -/
structure MQuizOption where
  option_id : Nat
  weights : StyleWeights
deriving DecidableEq, Repr

/-- A quiz question: identifier and options. -/
structure MQuizQuestion where
  question_id : String
  options : List MQuizOption
deriving DecidableEq, Repr

/-- A submitted answer: (question identifier, selected option identifier). -/
structure MQuizAnswer where
  question_id : String
  selected_option : Nat
deriving DecidableEq, Repr

/-- Classification failure kinds (spec section 7). -/
inductive ClassifyErr where
  | incompleteSubmission (missing : List String)
  | invalidAnswer
  | degenerateSubmission
deriving DecidableEq, Repr

/-- The classifier's output (BrainTypeResult, spec section 3): winning
style, confidence score, and the full distribution, stored as each style's
exact percentage share of the total weight. -/
structure BrainTypeResult where
  brain_type : Style
  confidence_score : ℚ
  distribution : StyleWeights
deriving DecidableEq, Repr

/-- Identifiers of required questions not covered by any answer. -/
def missingQuestionIds (questions : List MQuizQuestion) (answers : List MQuizAnswer) :
    List String :=
  (questions.filter (fun q => !(answers.any (fun a => a.question_id == q.question_id)))).map
    (fun q => q.question_id)

/-- Whether the answers cover every required question exactly once
(spec section 4.1 precondition). -/
def coversExactlyOnce (questions : List MQuizQuestion) (answers : List MQuizAnswer) : Bool :=
  questions.all (fun q =>
    (answers.filter (fun a => a.question_id == q.question_id)).length == 1)

/-- The style-weight vector of an answer's chosen option, `none` when the
question or option identifier is unknown. -/
def lookupAnswerWeights (questions : List MQuizQuestion) (a : MQuizAnswer) :
    Option StyleWeights :=
  match questions.find? (fun q => q.question_id == a.question_id) with
  | none => none
  | some q =>
    match q.options.find? (fun o => o.option_id == a.selected_option) with
    | none => none
    | some o => some o.weights

/-- Modelled from the spec: the accumulation loop of BrainTypeClassifier
(spec section 4.1, backend absent from src): add each chosen option's
weight vector element-wise into a running score, failing with
`InvalidAnswer` on an unknown question or option reference. -/
def accumulateWeights (questions : List MQuizQuestion) :
    List MQuizAnswer → Except ClassifyErr StyleWeights
  | [] => .ok StyleWeights.zero
  | a :: rest =>
    match lookupAnswerWeights questions a with
    | none => .error .invalidAnswer
    | some w =>
      match accumulateWeights questions rest with
      | .error e => .error e
      | .ok acc => .ok (w.add acc)

/-- Modelled from the spec: the winner selection of BrainTypeClassifier —
scan the styles in canonical order keeping the current best and replacing
it only on a strictly greater weight, so the first style in canonical order
among those tied for the maximum wins. -/
def pickWinner (w : StyleWeights) : Style :=
  if w.get .visual < w.get .auditory then
    if w.get .auditory < w.get .readWrite then
      if w.get .readWrite < w.get .kinesthetic then .kinesthetic else .readWrite
    else
      if w.get .auditory < w.get .kinesthetic then .kinesthetic else .auditory
  else
    if w.get .visual < w.get .readWrite then
      if w.get .readWrite < w.get .kinesthetic then .kinesthetic else .readWrite
    else
      if w.get .visual < w.get .kinesthetic then .kinesthetic else .visual

/-- A style's percentage share of the total weight. -/
def styleShare (w : StyleWeights) (s : Style) : ℚ :=
  100 * w.get s / totalWeight w

/-- The full distribution: each style's exact percentage share. -/
def shareVec (w : StyleWeights) : StyleWeights :=
  { visual := styleShare w .visual
    auditory := styleShare w .auditory
    readWrite := styleShare w .readWrite
    kinesthetic := styleShare w .kinesthetic }

/-- Modelled from the spec: BrainTypeClassifier (spec section 4.1, backend
absent from src).  Precondition check (every question answered exactly
once, else `IncompleteSubmission` naming the missing identifiers), weight
accumulation (`InvalidAnswer` on unknown references), positivity of the
total weight (else `DegenerateSubmission`), then winner, one-decimal
confidence and distribution. -/
def classifyBrainType (questions : List MQuizQuestion) (answers : List MQuizAnswer) :
    Except ClassifyErr BrainTypeResult :=
  if coversExactlyOnce questions answers then
    match accumulateWeights questions answers with
    | .error e => .error e
    | .ok w =>
      if 0 < totalWeight w then
        .ok { brain_type := pickWinner w
              confidence_score := specRound1 (styleShare w (pickWinner w))
              distribution := shareVec w }
      else .error .degenerateSubmission
  else .error (.incompleteSubmission (missingQuestionIds questions answers))

/-- A roadmap step as held by the backend engine (spec section 3,
RoadmapStep): step number plus content, completion flag and optional
completion timestamp. -/
structure EngineStep where
  num : Nat
  title : String
  description : String
  resource : String
  minutes : Nat
  tags : List String
  styleFit : Bool
  completed : Bool
  completedAt : Option String
deriving DecidableEq, Repr

/-- The content of a new step handed to Insert (everything but the number
and completion state). -/
structure EngineStepContent where
  title : String
  description : String
  resource : String
  minutes : Nat
  tags : List String
  styleFit : Bool
deriving DecidableEq, Repr

/-- Build a fresh step from content at a given number. -/
def mkEngineStep (c : EngineStepContent) (n : Nat) : EngineStep :=
  { num := n, title := c.title, description := c.description, resource := c.resource
    minutes := c.minutes, tags := c.tags, styleFit := c.styleFit
    completed := false, completedAt := none }

/-- Structural-mutation failure kinds (spec sections 4.3 and 7). -/
inductive MutErr where
  | invalidPosition
  | stepNotFound
  | invalidPermutation
deriving DecidableEq, Repr

/-- Renumbering helper of Insert: steps at or after the insertion position
move up by one. -/
def bumpFrom (p : Nat) (s : EngineStep) : EngineStep :=
  if p ≤ s.num then { s with num := s.num + 1 } else s

/-- The effective insertion position: the caller-supplied target position,
defaulting to append (`len + 1`). -/
def insertPos (r : List EngineStep) (posQ : Option Nat) : Nat :=
  posQ.getD (r.length + 1)

/-- Modelled from the spec: StepMutator.Insert (spec section 4.3, backend
absent from src): given content and an optional target position (default
append), insert the new step there and renumber all steps at or after that
position by +1; positions outside `[1, len+1]` fail with
`InvalidPosition`. -/
def insertStep (r : List EngineStep) (c : EngineStepContent) (posQ : Option Nat) :
    Except MutErr (List EngineStep) :=
  if 1 ≤ insertPos r posQ ∧ insertPos r posQ ≤ r.length + 1 then
    .ok (r.take (insertPos r posQ - 1) ++
      mkEngineStep c (insertPos r posQ) ::
        (r.drop (insertPos r posQ - 1)).map (bumpFrom (insertPos r posQ)))
  else .error .invalidPosition

/-- Renumbering helper of Delete: steps after the removed number move down
by one to close the gap. -/
def dropAbove (n : Nat) (s : EngineStep) : EngineStep :=
  if n < s.num then { s with num := s.num - 1 } else s

/-- Modelled from the spec: StepMutator.Delete (spec section 4.3, backend
absent from src): remove the step with the given number and renumber
subsequent steps down by 1; a number not present fails with
`StepNotFound`. -/
def deleteEngineStep (r : List EngineStep) (n : Nat) : Except MutErr (List EngineStep) :=
  if r.any (fun s => s.num == n) then
    .ok ((r.filter (fun s => s.num != n)).map (dropAbove n))
  else .error .stepNotFound

/-- Modelled from the spec: the strict validation of Reorder — the supplied
sequence's length must equal the current step count, every number `1..n`
must occur, and every entry must lie in `[1, n]` (with equal length this
makes the sequence a bijection onto `{1..n}`; any duplicate, missing, or
out-of-range value fails). -/
def validStepOrder (n : Nat) (perm : List Nat) : Bool :=
  perm.length == n && (List.range' 1 n).all (fun k => perm.contains k) &&
    perm.all (fun k => 1 ≤ k && k ≤ n)

/-- Reassign step numbers `k, k+1, ...` in list order. -/
def renumberFrom : Nat → List EngineStep → List EngineStep
  | _, [] => []
  | k, s :: rest => { s with num := k } :: renumberFrom (k + 1) rest

/-- Modelled from the spec: StepMutator.Reorder (spec section 4.3, backend
absent from src): validate the supplied permutation strictly (else
`InvalidPermutation`, all-or-nothing), then rebuild the sequence taking the
step with old number `perm[i]` as new step `i+1`. -/
def reorderEngineSteps (r : List EngineStep) (perm : List Nat) :
    Except MutErr (List EngineStep) :=
  if validStepOrder r.length perm then
    .ok (renumberFrom 1 (perm.filterMap (fun k => r.find? (fun s => s.num == k))))
  else .error .invalidPermutation

/-- One structural mutation request. -/
inductive StepOp where
  | insert (c : EngineStepContent) (pos : Option Nat)
  | delete (n : Nat)
  | reorder (perm : List Nat)
deriving DecidableEq, Repr

/-- Dispatch one mutation. -/
def applyStepOp : StepOp → List EngineStep → Except MutErr (List EngineStep)
  | .insert c p, r => insertStep r c p
  | .delete n, r => deleteEngineStep r n
  | .reorder perm, r => reorderEngineSteps r perm

/-- Run a sequence of mutations, stopping at the first failure. -/
def applyStepOps : List StepOp → List EngineStep → Except MutErr (List EngineStep)
  | [], r => .ok r
  | op :: rest, r =>
    match applyStepOp op r with
    | .error e => .error e
    | .ok r₁ => applyStepOps rest r₁

/-- The step numbers of a roadmap, in sequence order. -/
def stepNumbers (r : List EngineStep) : List Nat := r.map (fun s => s.num)

/-- The step-numbering invariant (spec section 3): the numbers are exactly
`1..len(steps)`, in order, with no gaps and no duplicates. -/
def Numbered (r : List EngineStep) : Prop :=
  stepNumbers r = List.range' 1 r.length

instance (r : List EngineStep) : Decidable (Numbered r) := by
  unfold Numbered; infer_instance

/-- The store-level effect of a reorder request: on success the new
sequence replaces the old, on failure the stored roadmap is unchanged and
the error is reported (all-or-nothing). -/
def reorderApply (r : List EngineStep) (perm : List Nat) : List EngineStep × Option MutErr :=
  match reorderEngineSteps r perm with
  | .ok r₁ => (r₁, none)
  | .error e => (r, some e)

/-- A completed demo step with a recorded completion timestamp. -/
def demoStepDone : RoadmapStep :=
  { step_number := 1, title := "Intro to Data Science"
    description := "Watch the overview video", resource_id := "res1"
    resource_url := "https://example.com/r1", resource_type := "video"
    estimated_time_minutes := 30, tags := ["basics"], brain_type_optimized := true
    completed := some true, completed_at := some "2025-01-01T00:00:00Z" }

/-- Claim C9 counterexample: a non-ok response whose JSON body has an
`error` field holding the empty string is reported with message
`Request failed`, not with the body's `error` field (the empty string),
because `errorData.error || 'Request failed'` tests truthiness, not
presence. -/
theorem spec_c9_counterexample :
    handleResponse false 400 (some (Json.obj [("error", Json.str "")])) =
      .apiErrorThrown 400 (Json.str "Request failed") ∧
    Json.str "Request failed" ≠ Json.str "" := by
  refine ⟨rfl, ?_⟩
  intro h
  simp at h

/-- Claim C9 (amended): `handleResponse` returns the parsed body when the
response is ok and the body parses (an unparseable ok body propagates the
JSON parse failure instead); a non-ok response whose body parses to JSON
`null` throws a `TypeError` at `errorData.error`, not an `ApiError`;
otherwise it throws an `ApiError` carrying the HTTP status, with message
the body's `error` field when that field is present and truthy,
`Request failed` when the parsed body lacks a truthy `error` field, and
`Unknown error` when the body is not parseable as JSON. -/
theorem spec_c9_amended (st : Nat) (j : Json) :
    handleResponse true st (some j) = .success j ∧
    handleResponse true st none = .parseFailure ∧
    handleResponse false st none = .apiErrorThrown st (Json.str "Unknown error") ∧
    handleResponse false st (some Json.null) = .typeErrorThrown ∧
    (getField j "error" = .undefined →
      handleResponse false st (some j) = .apiErrorThrown st (Json.str "Request failed")) ∧
    (∀ v, getField j "error" = .value v → jsTruthy v = false →
      handleResponse false st (some j) = .apiErrorThrown st (Json.str "Request failed")) ∧
    (∀ v, getField j "error" = .value v → jsTruthy v = true →
      handleResponse false st (some j) = .apiErrorThrown st v) := by
  refine ⟨rfl, rfl, rfl, rfl, ?_, ?_, ?_⟩
  · intro h
    simp [handleResponse, h]
  · intro v hv ht
    simp [handleResponse, hv, ht]
  · intro v hv ht
    simp [handleResponse, hv, ht]

/-- Claim C9 witness: a 404 with body `{"error": "Not found"}` throws
`ApiError(404, "Not found")`. -/
theorem spec_c9_amended_witness :
    handleResponse false 404 (some (Json.obj [("error", Json.str "Not found")])) =
      .apiErrorThrown 404 (Json.str "Not found") :=
  (spec_c9_amended 404 (Json.obj [("error", Json.str "Not found")])).2.2.2.2.2.2
    (Json.str "Not found") rfl rfl

/-- Claim C5 counterexample: the progress-toggle mutation request carries
exactly the fields `step_number` and `completed` — no `version` field, so
the caller does not supply the version it last observed. -/
theorem spec_c5_counterexample :
    requestFieldNames (updateStepProgressRequest "r1" 2 true) = ["step_number", "completed"] ∧
    "version" ∉ requestFieldNames (updateStepProgressRequest "r1" 2 true) := by
  decide

/-- Claim C5 (amended): no mutation request of the API client carries a
version token: `updateStepProgress` sends exactly `step_number` and
`completed`, `reorderSteps` sends exactly `step_order`, and `deleteStep`
sends no body at all, so the client implements no optimistic-concurrency
(StaleVersion) handshake. -/
theorem spec_c5_amended (roadmapId : String) (stepNumber : Nat) (completed : Bool)
    (stepOrder : List Nat) :
    requestFieldNames (updateStepProgressRequest roadmapId stepNumber completed) =
      ["step_number", "completed"] ∧
    requestFieldNames (reorderStepsRequest roadmapId stepOrder) = ["step_order"] ∧
    requestFieldNames (deleteStepRequest roadmapId stepNumber) = [] ∧
    "version" ∉ requestFieldNames (updateStepProgressRequest roadmapId stepNumber completed) ∧
    "version" ∉ requestFieldNames (reorderStepsRequest roadmapId stepOrder) := by
  refine ⟨rfl, rfl, rfl, ?_, ?_⟩ <;>
    simp [requestFieldNames, updateStepProgressRequest, reorderStepsRequest]

/-- Claim C2 counterexample: a toggle recompute over an empty step list
stores `NaN` (`0 / 0`, modelled `none`) as the completion percentage — it
is not defined as `0`. -/
theorem spec_c2_counterexample :
    (handleProgressToggleSteps [] 1 true "2025-01-01T00:00:00Z").2.completion_percentage =
      none ∧
    (handleProgressToggleSteps [] 1 true "2025-01-01T00:00:00Z").2.completion_percentage ≠
      some 0 := by
  decide

/-- Claim C2 (amended): after any toggle the stored summary satisfies
`total_steps` = number of steps, `completed_steps` = count of steps whose
completed flag is truthy, and `completion_percentage` =
`round(100 × completed_steps / total_steps, 1)` whenever `total_steps ≠ 0`;
when `total_steps = 0` the stored percentage is `NaN` (the division is
unguarded), not `0`. -/
theorem spec_c2_amended (steps : List RoadmapStep) (stepNumber : Nat) (completed : Bool)
    (now : String) :
    handleProgressToggleSteps steps stepNumber completed now =
      (steps.map (toggleStep stepNumber completed now),
       recomputeProgressSummary (steps.map (toggleStep stepNumber completed now))) ∧
    ∀ l : List RoadmapStep,
      (recomputeProgressSummary l).total_steps = l.length ∧
      (recomputeProgressSummary l).completed_steps = (l.filter stepCompletedTruthy).length ∧
      (l.length ≠ 0 → (recomputeProgressSummary l).completion_percentage =
        some (specRound1 (100 * ((l.filter stepCompletedTruthy).length : ℚ) / l.length))) ∧
      (l.length = 0 → (recomputeProgressSummary l).completion_percentage = none) := by
  refine ⟨rfl, ?_⟩
  intro l
  refine ⟨rfl, rfl, ?_, ?_⟩
  · intro hl
    simp only [recomputeProgressSummary, specRound1, jsMathRound]
    rw [if_neg hl]
    have harg : ((l.filter stepCompletedTruthy).length : ℚ) / (l.length : ℚ) * 100 * 10 =
        100 * ((l.filter stepCompletedTruthy).length : ℚ) / (l.length : ℚ) * 10 := by
      ring
    rw [harg]
  · intro hl
    simp [recomputeProgressSummary, hl]

/-- Claim C2 witness: on a one-step roadmap whose step is completed, the
recompute stores 1 of 1 steps and 100 percent. -/
theorem spec_c2_amended_witness :
    (recomputeProgressSummary [demoStepDone]).completion_percentage =
      some (specRound1 (100 * ((([demoStepDone] : List RoadmapStep).filter
        stepCompletedTruthy).length : ℚ) / ([demoStepDone] : List RoadmapStep).length)) :=
  (((spec_c2_amended [] 0 false "").2 [demoStepDone]).2.2.1 (by decide))

/-- Claim C3 counterexample: toggling an already-completed step to
completed again overwrites the previously recorded completion timestamp
with the new toggle time, rather than leaving it unchanged. -/
theorem spec_c3_counterexample :
    (toggleStep 1 true "2025-02-02T10:00:00Z" demoStepDone).completed_at ≠
      demoStepDone.completed_at ∧
    (toggleStep 1 true "2025-02-02T10:00:00Z" demoStepDone).completed_at =
      some "2025-02-02T10:00:00Z" := by
  decide

/-- Claim C3 (amended): the toggle sets the matched step's completion
timestamp to the time of the toggle whenever the new flag is true —
including when the flag was already true, so a repeated true-toggle
refreshes the timestamp instead of leaving it unchanged — and clears it on
any toggle to false; steps with a different number are untouched. -/
theorem spec_c3_amended (stepNumber : Nat) (completed : Bool) (now : String)
    (s : RoadmapStep) :
    (s.step_number = stepNumber →
      (toggleStep stepNumber completed now s).completed_at =
        (if completed then some now else none) ∧
      (toggleStep stepNumber completed now s).completed = some completed) ∧
    (s.step_number ≠ stepNumber → toggleStep stepNumber completed now s = s) := by
  constructor
  · intro h
    simp [toggleStep, h]
  · intro h
    simp [toggleStep, h]

/-- Claim C3 witness: the demo step toggled to true at a later time gets
that later time as its timestamp. -/
theorem spec_c3_amended_witness :
    (toggleStep 1 true "2025-02-02T10:00:00Z" demoStepDone).completed_at =
      (if true then some "2025-02-02T10:00:00Z" else none) ∧
    (toggleStep 1 true "2025-02-02T10:00:00Z" demoStepDone).completed = some true :=
  (spec_c3_amended 1 true "2025-02-02T10:00:00Z" demoStepDone).1 rfl

/-- A form whose estimated time is below the one-minute minimum. -/
def demoInvalidForm : StepFormData :=
  { title := "Read the article", description := "An overview"
    resource_url := "https://example.com", resource_type := "article"
    estimated_time_minutes := 0, tags := [], brain_type_optimized := true }

/-- Claim C10 (confirmed): `handleSubmit` invokes `onSave` only when the
title, description and resource URL are non-blank after trimming and the
estimated time is at least 1 minute; when any check fails, no save occurs,
a non-empty error message is set, and the modal stays open. -/
theorem spec_c10_validation (form : StepFormData) (saveResult : Except String Unit) :
    ((handleSubmit form saveResult).saveInvoked = true → stepFormValid form) ∧
    (¬ stepFormValid form →
      (handleSubmit form saveResult).saveInvoked = false ∧
      (handleSubmit form saveResult).errorMessage ≠ "" ∧
      (handleSubmit form saveResult).modalClosed = false) := by
  unfold handleSubmit stepFormValid
  split_ifs with h1 h2 h3 h4
  · exact ⟨fun hinv => by simp at hinv, fun _ => ⟨rfl, by decide, rfl⟩⟩
  · exact ⟨fun hinv => by simp at hinv, fun _ => ⟨rfl, by decide, rfl⟩⟩
  · exact ⟨fun hinv => by simp at hinv, fun _ => ⟨rfl, by decide, rfl⟩⟩
  · exact ⟨fun hinv => by simp at hinv, fun _ => ⟨rfl, by decide, rfl⟩⟩
  · have hvalid : form.title.trim ≠ "" ∧ form.description.trim ≠ "" ∧
        form.resource_url.trim ≠ "" ∧ 1 ≤ form.estimated_time_minutes :=
      ⟨h1, h2, h3, by omega⟩
    cases saveResult with
    | ok u => exact ⟨fun _ => hvalid, fun hinv => absurd hvalid hinv⟩
    | error e => exact ⟨fun _ => hvalid, fun hinv => absurd hvalid hinv⟩

/-- Claim C10 witness: submitting a form with a zero-minute estimate
performs no save, shows an error, and leaves the modal open. -/
theorem spec_c10_validation_witness :
    (handleSubmit demoInvalidForm (Except.ok ())).saveInvoked = false ∧
    (handleSubmit demoInvalidForm (Except.ok ())).errorMessage ≠ "" ∧
    (handleSubmit demoInvalidForm (Except.ok ())).modalClosed = false :=
  (spec_c10_validation demoInvalidForm (Except.ok ())).2
    (by intro hv; unfold stepFormValid at hv; exact absurd hv.2.2.2 (by decide))

/-- Claim C8 (confirmed): the intensity enumeration maps beginner to
30 minutes/day over 8 weeks, intermediate to 60/6 and advanced to 90/4,
and the quiz's Select options advertise for each intensity value exactly
the label built from that same budget pair. -/
theorem spec_c8_intensity :
    intensityBudget .beginner = (30, 8) ∧ intensityBudget .intermediate = (60, 6) ∧
    intensityBudget .advanced = (90, 4) ∧
    quizIntensityOptions = intensityList.map (fun i =>
      (intensityValue i,
       intensityDisplayName i ++ " (" ++ toString (intensityBudget i).1 ++ " min/day, " ++
         toString (intensityBudget i).2 ++ " weeks)")) := by
  refine ⟨rfl, rfl, rfl, ?_⟩
  rfl

/-- A one-question demo quiz whose single chosen option weights Visual and
Auditory equally. -/
def demoQuestions : List MQuizQuestion :=
  [{ question_id := "q1"
     options := [{ option_id := 1, weights := ⟨1, 1, 0, 0⟩ },
                 { option_id := 2, weights := ⟨0, 0, 1, 0⟩ }] }]

/-- The demo answer selecting the tied Visual/Auditory option. -/
def demoAnswers : List MQuizAnswer := [{ question_id := "q1", selected_option := 1 }]

/-- The classification the demo submission produces: an exact
Visual/Auditory tie resolved to Visual, at 50 percent confidence. -/
def demoBrainResult : BrainTypeResult :=
  { brain_type := .visual, confidence_score := 50, distribution := ⟨50, 50, 0, 0⟩ }

/-- Claim C7 (confirmed): the classifier is a pure function of its inputs —
any two successful invocations on the identical question set and answer set
agree on the winning style, the confidence score, and the distribution. -/
theorem spec_c7_determinism (questions : List MQuizQuestion) (answers : List MQuizAnswer)
    (res₁ res₂ : BrainTypeResult) (h₁ : classifyBrainType questions answers = .ok res₁)
    (h₂ : classifyBrainType questions answers = .ok res₂) :
    res₁.brain_type = res₂.brain_type ∧ res₁.confidence_score = res₂.confidence_score ∧
      res₁.distribution = res₂.distribution := by
  rw [h₁] at h₂
  obtain rfl := Except.ok.inj h₂
  exact ⟨rfl, rfl, rfl⟩

/-- The demo submission classifies to the demo result: the Visual/Auditory
tie resolves to Visual with 50 percent confidence. -/
theorem demoClassify_eq : classifyBrainType demoQuestions demoAnswers = .ok demoBrainResult := by
  have hfloor : (⌊(500 : ℚ) + 1 / 2⌋ : ℤ) = 500 := by
    rw [Int.floor_eq_iff]
    constructor
    · norm_num
    · norm_num
  unfold classifyBrainType
  norm_num [demoQuestions, demoAnswers, coversExactlyOnce, accumulateWeights,
    lookupAnswerWeights, StyleWeights.add, StyleWeights.zero, totalWeight, pickWinner,
    StyleWeights.get, styleShare, shareVec, specRound1, jsMathRound, demoBrainResult, hfloor]

/-- Claim C7 witness: two runs on the demo submission agree. -/
theorem spec_c7_determinism_witness :
    demoBrainResult.brain_type = demoBrainResult.brain_type ∧
    demoBrainResult.confidence_score = demoBrainResult.confidence_score ∧
    demoBrainResult.distribution = demoBrainResult.distribution :=
  spec_c7_determinism demoQuestions demoAnswers demoBrainResult demoBrainResult
    demoClassify_eq demoClassify_eq

/-- The distribution's lookup agrees with the share formula. -/
theorem shareVec_get (w : StyleWeights) (s : Style) : (shareVec w).get s = styleShare w s := by
  cases s <;> rfl

/-- The selected winner carries a maximal weight. -/
theorem pickWinner_le (w : StyleWeights) (s : Style) : w.get s ≤ w.get (pickWinner w) := by
  unfold pickWinner
  split_ifs <;> cases s <;> linarith

/-- Any style whose weight ties the winner's sits at or after the winner in
the canonical ordering: the winner is the canonically first maximiser. -/
theorem pickWinner_canonFirst (w : StyleWeights) (s : Style)
    (h : w.get s = w.get (pickWinner w)) : canonIdx (pickWinner w) ≤ canonIdx s := by
  unfold pickWinner at h ⊢
  split_ifs at h ⊢ <;> cases s <;> simp only [canonIdx] <;> first | omega | linarith

/-- Inversion of a successful classification: it arises from accumulated
weights with positive total. -/
theorem classifyBrainType_ok_inv (questions : List MQuizQuestion)
    (answers : List MQuizAnswer) (res : BrainTypeResult)
    (h : classifyBrainType questions answers = .ok res) :
    ∃ w, accumulateWeights questions answers = .ok w ∧ 0 < totalWeight w ∧
      res = { brain_type := pickWinner w
              confidence_score := specRound1 (styleShare w (pickWinner w))
              distribution := shareVec w } := by
  unfold classifyBrainType at h
  split at h
  · split at h
    · exact Except.noConfusion h
    · rename_i w hacc
      split at h
      · rename_i hpos
        exact ⟨w, hacc, hpos, (Except.ok.inj h).symm⟩
      · exact Except.noConfusion h
  · exact Except.noConfusion h

/-- Shares are monotone in weights when the total is positive. -/
theorem styleShare_le_styleShare (w : StyleWeights) (hpos : 0 < totalWeight w) (s t : Style)
    (h : w.get s ≤ w.get t) : styleShare w s ≤ styleShare w t := by
  unfold styleShare
  have h100 : (100 : ℚ) * w.get s ≤ 100 * w.get t := by linarith
  exact (div_le_div_iff_of_pos_right hpos).mpr h100

/-- Equal shares come from equal weights when the total is positive. -/
theorem styleShare_inj (w : StyleWeights) (hpos : 0 < totalWeight w) (s t : Style)
    (h : styleShare w s = styleShare w t) : w.get s = w.get t := by
  unfold styleShare at h
  have hT : totalWeight w ≠ 0 := ne_of_gt hpos
  field_simp at h
  linarith

/-- Claim C6 (confirmed): a successful classification's winning style
carries a maximal share of the distribution, and any style whose share
exactly ties the winner's sits at or after the winner in the canonical
ordering (Visual, Auditory, ReadWrite, Kinesthetic): ties resolve to the
canonically first style, deterministically. -/
theorem spec_c6_tiebreak (questions : List MQuizQuestion) (answers : List MQuizAnswer)
    (res : BrainTypeResult) (h : classifyBrainType questions answers = .ok res) :
    (∀ s, res.distribution.get s ≤ res.distribution.get res.brain_type) ∧
    (∀ s, res.distribution.get s = res.distribution.get res.brain_type →
      canonIdx res.brain_type ≤ canonIdx s) := by
  obtain ⟨w, -, hpos, rfl⟩ := classifyBrainType_ok_inv questions answers res h
  constructor
  · intro s
    simp only [shareVec_get]
    exact styleShare_le_styleShare w hpos s (pickWinner w) (pickWinner_le w s)
  · intro s hs
    simp only [shareVec_get] at hs
    exact pickWinner_canonFirst w s (styleShare_inj w hpos s (pickWinner w) hs)

/-- Claim C6 witness: in the demo submission Visual and Auditory tie at 50
percent each, and the classifier resolves the tie to Visual, the
canonically first of the two. -/
theorem spec_c6_tiebreak_witness :
    canonIdx demoBrainResult.brain_type ≤ canonIdx Style.auditory ∧
    demoBrainResult.brain_type = Style.visual :=
  ⟨(spec_c6_tiebreak demoQuestions demoAnswers demoBrainResult demoClassify_eq).2
      Style.auditory rfl, rfl⟩

/-- Step numbers of a concatenation. -/
theorem stepNumbers_append (r₁ r₂ : List EngineStep) :
    stepNumbers (r₁ ++ r₂) = stepNumbers r₁ ++ stepNumbers r₂ := by
  simp [stepNumbers]

/-- Step numbers of a cons. -/
theorem stepNumbers_cons (s : EngineStep) (t : List EngineStep) :
    stepNumbers (s :: t) = s.num :: stepNumbers t := rfl

/-- Step numbers commute with `take`. -/
theorem stepNumbers_take (r : List EngineStep) (k : Nat) :
    stepNumbers (r.take k) = (stepNumbers r).take k := by
  simp [stepNumbers]

/-- Step numbers commute with `drop`. -/
theorem stepNumbers_drop (r : List EngineStep) (k : Nat) :
    stepNumbers (r.drop k) = (stepNumbers r).drop k := by
  simp [stepNumbers]

/-- A step list whose numbers form a contiguous range starting at 1 is
numbered: the length is forced by the range. -/
theorem numbered_of_range' (r : List EngineStep) (m : Nat)
    (h : stepNumbers r = List.range' 1 m) : Numbered r := by
  have hl : r.length = m := by
    have hlen := congrArg List.length h
    simpa [stepNumbers] using hlen
  unfold Numbered
  rw [h, hl]

/-- Taking a prefix of a contiguous range gives the shorter range. -/
theorem take_range' (k : Nat) : ∀ (a n : Nat), k ≤ n →
    (List.range' a n).take k = List.range' a k := by
  induction k with
  | zero => intro a n _; simp
  | succ k ih =>
    intro a n hk
    cases n with
    | zero => omega
    | succ n =>
      rw [List.range'_succ, List.range'_succ, List.take_succ_cons, ih (a + 1) n (by omega)]

/-- Dropping a prefix of a contiguous range gives the shifted range. -/
theorem drop_range' (k : Nat) : ∀ (a n : Nat),
    (List.range' a n).drop k = List.range' (a + k) (n - k) := by
  induction k with
  | zero => intro a n; simp
  | succ k ih =>
    intro a n
    cases n with
    | zero => simp
    | succ n =>
      rw [List.range'_succ, List.drop_succ_cons, ih (a + 1) n]
      have h1 : a + 1 + k = a + (k + 1) := by omega
      have h2 : n - k = n + 1 - (k + 1) := by omega
      rw [h1, h2]

/-- The number of a bumped step. -/
theorem num_bumpFrom (p : Nat) (s : EngineStep) :
    (bumpFrom p s).num = if p ≤ s.num then s.num + 1 else s.num := by
  unfold bumpFrom
  split <;> rfl

/-- Step numbers commute with the insert renumbering. -/
theorem stepNumbers_map_bumpFrom (p : Nat) (l : List EngineStep) :
    stepNumbers (l.map (bumpFrom p)) =
      (stepNumbers l).map (fun m => if p ≤ m then m + 1 else m) := by
  simp only [stepNumbers, List.map_map]
  exact List.map_congr_left (fun s _ => num_bumpFrom p s)

/-- Bumping a range that lies entirely at or above the pivot shifts it. -/
theorem map_bump_range' (p : Nat) : ∀ (a n : Nat), p ≤ a →
    (List.range' a n).map (fun m => if p ≤ m then m + 1 else m) =
      List.range' (a + 1) n := by
  intro a n
  induction n generalizing a with
  | zero => intro _; simp
  | succ n ih =>
    intro h
    rw [List.range'_succ, List.range'_succ, List.map_cons, if_pos h, ih (a + 1) (by omega)]

/-- Insert preserves the numbering invariant. -/
theorem insertStep_numbered (r : List EngineStep) (c : EngineStepContent)
    (posQ : Option Nat) (r' : List EngineStep) (hr : Numbered r)
    (h : insertStep r c posQ = .ok r') : Numbered r' := by
  unfold insertStep at h
  set p := insertPos r posQ with hp
  split at h
  case isFalse => exact Except.noConfusion h
  case isTrue hcond =>
    obtain rfl := Except.ok.inj h
    apply numbered_of_range' _ (r.length + 1)
    have hr' : stepNumbers r = List.range' 1 r.length := hr
    have h1 : stepNumbers (r.take (p - 1)) = List.range' 1 (p - 1) := by
      rw [stepNumbers_take, hr', take_range' (p - 1) 1 r.length (by omega)]
    have h2 : stepNumbers ((r.drop (p - 1)).map (bumpFrom p)) =
        List.range' (p + 1) (r.length - (p - 1)) := by
      rw [stepNumbers_map_bumpFrom, stepNumbers_drop, hr', drop_range' (p - 1) 1 r.length,
        map_bump_range' p (1 + (p - 1)) (r.length - (p - 1)) (by omega)]
      have : 1 + (p - 1) + 1 = p + 1 := by omega
      rw [this]
    rw [stepNumbers_append, stepNumbers_cons, h1, h2]
    have hmk : (mkEngineStep c p).num = p := rfl
    rw [hmk]
    have hcons : p :: List.range' (p + 1) (r.length - (p - 1)) =
        List.range' p (r.length - (p - 1) + 1) := by
      rw [List.range'_succ]
    rw [hcons]
    have hpeq : p = 1 + (p - 1) := by omega
    conv_lhs => rw [show List.range' p (r.length - (p - 1) + 1) =
      List.range' (1 + (p - 1)) (r.length - (p - 1) + 1) from by rw [← hpeq]]
    rw [List.range'_append_1 1 (p - 1) (r.length - (p - 1) + 1)]
    have : r.length - (p - 1) + 1 + (p - 1) = r.length + 1 := by omega
    rw [this]

/-- The number of a step after the delete renumbering. -/
theorem num_dropAbove (n : Nat) (s : EngineStep) :
    (dropAbove n s).num = if n < s.num then s.num - 1 else s.num := by
  unfold dropAbove
  split <;> rfl

/-- Step numbers commute with the delete transformation. -/
theorem stepNumbers_delete (n : Nat) (r : List EngineStep) :
    stepNumbers ((r.filter (fun s => s.num != n)).map (dropAbove n)) =
      ((stepNumbers r).filter (fun m => m != n)).map
        (fun m => if n < m then m - 1 else m) := by
  induction r with
  | nil => rfl
  | cons s t ih =>
    by_cases h : s.num = n
    · simp [stepNumbers_cons, List.filter_cons, h, ih]
    · simp [stepNumbers_cons, List.filter_cons, h, ih, num_dropAbove]

/-- Removing one member of a contiguous range and closing the gap yields
the range one shorter. -/
theorem filterdec_range' (n : Nat) : ∀ (k a : Nat), n ∈ List.range' a k →
    ((List.range' a k).filter (fun m => m != n)).map
      (fun m => if n < m then m - 1 else m) = List.range' a (k - 1) := by
  intro k
  induction k with
  | zero => intro a hmem; simp at hmem
  | succ k ih =>
    intro a hmem
    rw [List.range'_succ] at hmem ⊢
    by_cases h : n = a
    · subst h
      have hfil : (List.range' (n + 1) k).filter (fun m => m != n) =
          List.range' (n + 1) k := by
        rw [List.filter_eq_self]
        intro m hm
        have := (List.mem_range'_1.mp hm).1
        simpa using by omega
      have hmap : (List.range' (n + 1) k).map (fun m => if n < m then m - 1 else m) =
          (List.range' (n + 1) k).map (fun m => m - 1) := by
        apply List.map_congr_left
        intro m hm
        have := (List.mem_range'_1.mp hm).1
        rw [if_pos (by omega)]
      have hsub : (List.range' (n + 1) k).map (fun m => m - 1) = List.range' n k := by
        have := @List.map_sub_range' 1 1 (n + 1) k (by omega)
        simpa using this
      simp [List.filter_cons, hfil, hmap, hsub]
    · have hmem' : n ∈ List.range' (a + 1) k := by
        rcases List.mem_cons.mp hmem with h1 | h2
        · exact absurd h1 h
        · exact h2
      have hk : k ≠ 0 := by
        rintro rfl
        simp at hmem'
      have hna : ¬ n < a := by
        have := (List.mem_range'_1.mp hmem').1
        omega
      have hbne2 : a ≠ n := fun he => h he.symm
      have hstep : ((a :: List.range' (a + 1) k).filter (fun m => m != n)).map
          (fun m => if n < m then m - 1 else m) =
          (if n < a then a - 1 else a) ::
            ((List.range' (a + 1) k).filter (fun m => m != n)).map
              (fun m => if n < m then m - 1 else m) := by
        rw [List.filter_cons]
        simp [hbne2]
      rw [hstep, if_neg hna, ih (a + 1) hmem']
      rw [show (k + 1 - 1) = (k - 1) + 1 from by omega, List.range'_succ]

/-- Delete preserves the numbered invariant. -/
theorem deleteEngineStep_numbered (r : List EngineStep) (n : Nat) (r' : List EngineStep)
    (hr : Numbered r) (h : deleteEngineStep r n = .ok r') : Numbered r' := by
  unfold deleteEngineStep at h
  split at h
  case isFalse => exact Except.noConfusion h
  case isTrue hany =>
    obtain rfl := Except.ok.inj h
    apply numbered_of_range' _ (r.length - 1)
    rw [stepNumbers_delete]
    have hr' : stepNumbers r = List.range' 1 r.length := hr
    rw [hr']
    apply filterdec_range'
    obtain ⟨s, hs, hsn⟩ := List.any_eq_true.mp hany
    have hmem : s.num ∈ stepNumbers r := List.mem_map_of_mem (fun x => x.num) hs
    rw [hr'] at hmem
    have : s.num = n := by simpa using hsn
    rwa [this] at hmem

/-- Renumbering assigns the contiguous range starting at the given base. -/
theorem stepNumbers_renumberFrom (l : List EngineStep) : ∀ (k : Nat),
    stepNumbers (renumberFrom k l) = List.range' k l.length := by
  induction l with
  | nil => intro k; rfl
  | cons s t ih =>
    intro k
    show k :: stepNumbers (renumberFrom (k + 1) t) = List.range' k (t.length + 1)
    rw [ih (k + 1), List.range'_succ]

/-- Reorder preserves the numbered invariant. -/
theorem reorderEngineSteps_numbered (r : List EngineStep) (perm : List Nat)
    (r' : List EngineStep) (h : reorderEngineSteps r perm = .ok r') : Numbered r' := by
  unfold reorderEngineSteps at h
  split at h
  · obtain rfl := Except.ok.inj h
    exact numbered_of_range' _ _ (stepNumbers_renumberFrom _ 1)
  · exact Except.noConfusion h

/-- Claim C1 (confirmed): any sequence of insert, delete and reorder
operations that completes successfully carries the step-numbering invariant
forward — starting from a roadmap whose numbers are exactly `1..n`, the
resulting roadmap's numbers are exactly `1..n'` for its new length, with no
gaps and no duplicates. -/
theorem spec_c1_invariant (ops : List StepOp) (r r' : List EngineStep) (hr : Numbered r)
    (h : applyStepOps ops r = .ok r') : Numbered r' := by
  induction ops generalizing r with
  | nil =>
    unfold applyStepOps at h
    obtain rfl := Except.ok.inj h
    exact hr
  | cons op rest ih =>
    unfold applyStepOps at h
    cases hop : applyStepOp op r with
    | error e => rw [hop] at h; exact Except.noConfusion h
    | ok r₁ =>
      rw [hop] at h
      have h₁ : Numbered r₁ := by
        cases op with
        | insert c pos => exact insertStep_numbered r c pos r₁ hr hop
        | delete n => exact deleteEngineStep_numbered r n r₁ hr hop
        | reorder perm => exact reorderEngineSteps_numbered r perm r₁ hop
      exact ih r₁ h₁ h

/-- The strict reorder validation accepts exactly the sequences that are a
permutation of the current step numbers `1..n` (bijections onto `{1..n}`). -/
theorem validStepOrder_true_iff (n : Nat) (perm : List Nat) :
    validStepOrder n perm = true ↔ perm.Perm (List.range' 1 n) := by
  constructor
  · intro hv
    unfold validStepOrder at hv
    simp only [Bool.and_eq_true, beq_iff_eq, List.all_eq_true] at hv
    obtain ⟨⟨hlen, hsub⟩, hbound⟩ := hv
    have hnodup : (List.range' 1 n).Nodup := List.nodup_range' 1 n
    have hsubset : List.range' 1 n ⊆ perm := by
      intro k hk
      have := hsub k hk
      simpa using this
    have hsp := List.subperm_of_subset hnodup hsubset
    have hle : perm.length ≤ (List.range' 1 n).length := by simp [hlen]
    exact (hsp.perm_of_length_le hle).symm
  · intro hp
    unfold validStepOrder
    simp only [Bool.and_eq_true, beq_iff_eq, List.all_eq_true]
    have hlen : perm.length = n := by simpa using hp.length_eq
    refine ⟨⟨hlen, ?_⟩, ?_⟩
    · intro k hk
      have : k ∈ perm := hp.mem_iff.mpr hk
      simpa using this
    · intro k hk
      have hkr : k ∈ List.range' 1 n := hp.mem_iff.mp hk
      have := List.mem_range'_1.mp hkr
      simp only [Bool.and_eq_true, decide_eq_true_eq]
      omega

/-- Claim C4 (confirmed): a reorder request whose sequence is not a
bijection onto `{1..n}` for the current step count `n` — any duplicate,
missing or out-of-range value, or wrong length — fails with
`InvalidPermutation`, and the stored roadmap is left completely
unchanged. -/
theorem spec_c4_reorder_rejects (r : List EngineStep) (perm : List Nat)
    (h : ¬ perm.Perm (List.range' 1 r.length)) :
    reorderEngineSteps r perm = .error .invalidPermutation ∧
    reorderApply r perm = (r, some .invalidPermutation) := by
  have hv : validStepOrder r.length perm = false := by
    cases hvb : validStepOrder r.length perm
    · rfl
    · exact absurd ((validStepOrder_true_iff r.length perm).mp hvb) h
  constructor
  · simp [reorderEngineSteps, hv]
  · simp [reorderApply, reorderEngineSteps, hv]

/-- A two-step demo roadmap satisfying the numbering invariant. -/
def demoEngineRoadmap : List EngineStep :=
  [{ num := 1, title := "Basics", description := "Start here", resource := "res-a"
     minutes := 30, tags := [], styleFit := true, completed := false, completedAt := none },
   { num := 2, title := "Practice", description := "Hands-on exercise", resource := "res-b"
     minutes := 45, tags := [], styleFit := false, completed := false, completedAt := none }]

/-- Content for a demo insertion. -/
def demoContent : EngineStepContent :=
  { title := "Setup", description := "Install tools", resource := "res-c", minutes := 15
    tags := [], styleFit := false }

/-- A demo mutation sequence: insert at the front, delete step 2, then
reverse the two remaining steps. -/
def demoOps : List StepOp :=
  [StepOp.insert demoContent (some 1), StepOp.delete 2, StepOp.reorder [2, 1]]

/-- The roadmap the demo mutation sequence produces. -/
def demoMutResult : List EngineStep :=
  [{ num := 1, title := "Practice", description := "Hands-on exercise", resource := "res-b"
     minutes := 45, tags := [], styleFit := false, completed := false, completedAt := none },
   { num := 2, title := "Setup", description := "Install tools", resource := "res-c"
     minutes := 15, tags := [], styleFit := false, completed := false, completedAt := none }]

/-- Claim C1 witness: the demo insert/delete/reorder run succeeds and its
result is numbered exactly `1..2`. -/
theorem spec_c1_invariant_witness : Numbered demoMutResult :=
  spec_c1_invariant demoOps demoEngineRoadmap demoMutResult (by decide) rfl

/-- Claim C4 witness: the duplicate-bearing sequence `[1, 1]` against the
two-step demo roadmap is rejected with `InvalidPermutation` and the stored
roadmap is unchanged. -/
theorem spec_c4_reorder_rejects_witness :
    reorderEngineSteps demoEngineRoadmap [1, 1] = .error .invalidPermutation ∧
    reorderApply demoEngineRoadmap [1, 1] =
      (demoEngineRoadmap, some .invalidPermutation) :=
  spec_c4_reorder_rejects demoEngineRoadmap [1, 1] (by decide)

/-- Claim C5 witness: a concrete progress-toggle request carries exactly
`step_number` and `completed`, and a concrete reorder request carries
exactly `step_order`. -/
theorem spec_c5_amended_witness :
    requestFieldNames (updateStepProgressRequest "r1" 2 true) =
      ["step_number", "completed"] ∧
    requestFieldNames (reorderStepsRequest "r1" [2, 1]) = ["step_order"] :=
  ⟨(spec_c5_amended "r1" 2 true [2, 1]).1, (spec_c5_amended "r1" 2 true [2, 1]).2.1⟩
